import Mathlib

set_option autoImplicit false

/-!
Verification of the staking-operation subsystem of a TypeScript SDK.

The development shallowly embeds the code of `src/coinbase/staking_operation.js`,
`src/coinbase/asset.js`, `src/coinbase/address/external_address.js`,
`src/coinbase/address/wallet_address.js` and the `Address` validation methods
(`validateCanStake` / `validateCanUnstake` / `validateCanClaimStake`,
`getStakingBalances`).

Modelling conventions:
- JavaScript string-keyed option objects become association lists
  `List (String × String)`; property write is `optSet` (replace in place or
  append), property read is `optGet`.
- `decimal.js` values become rationals `ℚ`.  The library is used with its
  default configuration (the repository never calls `Decimal.set`), so every
  arithmetic method result is rounded to 20 significant decimal digits with
  rounding mode ROUND_HALF_UP; `roundSig 20` models that rounding.  The
  `Decimal` constructor and comparisons are exact.
- fallible code returns `Except String` (the string is the thrown message) or
  a structured error type documented at its definition.
- backend round trips are modelled by passing the decoded response value as an
  explicit argument; a returned `Except.ok request` value means exactly that
  this request is handed to the network call.
-/

/-! ## Option maps (JavaScript `{ [key: string]: string }` objects) -/

/-- A JavaScript string-keyed options object: an association list whose keys
are unique in any object actually produced by the embedded code. -/
abbrev Options := List (String × String)

/-- Property read `o[k]`: the value at the first binding of `k`, if any. -/
def optGet (o : Options) (k : String) : Option String :=
  (o.find? (fun p => p.1 == k)).map (fun p => p.2)

/-- Property write `o[k] = v`: replace the value at the existing binding of
`k` keeping its position, or append a new binding. -/
def optSet (o : Options) (k v : String) : Options :=
  match o with
  | [] => [(k, v)]
  | p :: rest => if p.1 == k then (k, v) :: rest else p :: optSet rest k v

/-! ## Constants from `coinbase.js` and the client enums -/

/- Asset ids from `Coinbase.assets` in `src/coinbase/coinbase.js`. -/
namespace CoinbaseAssets

def Eth : String := "eth"

def Wei : String := "wei"

def Gwei : String := "gwei"

end CoinbaseAssets

/- Staking mode values.  Modelled from the spec: the `StakeOptionsMode` enum
itself lives in `types.js`, outside `src/`; the embedded code only compares a
mode against `NATIVE`, and the spec distinguishes `NATIVE` from the default
mode, so the enum is modelled as its runtime string values. -/
namespace StakeOptionsMode

def DEFAULT : String := "default"

def NATIVE : String := "native"

end StakeOptionsMode

/- Staking operation status values.  Modelled from the spec: the
`StakingOperationStatusEnum` lives in the generated API client, outside
`src/`; the embedded code only compares the status against `Complete` and
`Failed`, and the spec says the orchestration distinguishes exactly complete
versus failed versus everything else, so the enum is modelled as strings. -/
namespace StakingOperationStatusEnum

def Complete : String := "complete"

def Failed : String := "failed"

end StakingOperationStatusEnum

/-- The `unstake_type` option value for execution-layer unstakes
(`staking_operation.js`). -/
def UnstakeTypeExecution : String := "execution"

/-- The `unstake_type` option value for consensus-layer exits
(`staking_operation.js`). -/
def UnstakeTypeConsensus : String := "consensus"

/-- Embeds `HasUnstakeTypeOption` from `staking_operation.js`: the options
carry an `unstake_type` key equal to `consensus` or `execution`. -/
def HasUnstakeTypeOption (options : Options) : Bool :=
  optGet options "unstake_type" == some UnstakeTypeConsensus ||
    optGet options "unstake_type" == some UnstakeTypeExecution

/-- Embeds `IsDedicatedEthUnstakeV2Operation` from `staking_operation.js`. -/
def IsDedicatedEthUnstakeV2Operation (assetId action mode : String)
    (options : Options) : Bool :=
  assetId == CoinbaseAssets.Eth &&
    action == "unstake" &&
    mode == StakeOptionsMode.NATIVE &&
    HasUnstakeTypeOption options

/-! ## Decimal arithmetic (`asset.js` with the `decimal.js` library)

`decimal.js` stores exact finite decimal numbers; the constructor is exact,
while every arithmetic method (`times`, `dividedBy`, `pow`) rounds its result
to `precision` significant digits (default 20) with `rounding` mode 4, which
is ROUND_HALF_UP (ties away from zero).  The repository never changes the
defaults.  A finite decimal is a rational whose denominator divides a power of
ten, so the model works on `ℚ` and implements the significant-digit rounding
explicitly. -/

/-- Fuel-driven multiplicity of the prime `p` in `n` (`countFactor p n` with
fuel `n` itself, which always suffices for `p ≥ 2`). -/
def countFactorAux (p : Nat) : Nat → Nat → Nat
  | 0, _ => 0
  | fuel + 1, n => if 1 < n && n % p == 0 then countFactorAux p fuel (n / p) + 1 else 0

/-- Multiplicity of the prime `p` in `n`. -/
def countFactor (p n : Nat) : Nat :=
  countFactorAux p n n

/-- Fuel-driven decimal digit count. -/
def digitsAux : Nat → Nat → Nat
  | 0, _ => 0
  | fuel + 1, n => if n < 10 then 1 else digitsAux fuel (n / 10) + 1

/-- Number of decimal digits of `n` (with `digitCount 0 = 1`, matching the
single-digit significand the library stores for zero). -/
def digitCount (n : Nat) : Nat :=
  digitsAux (n + 1) n

/-- Round the natural number `n` to `prec` significant decimal digits,
half up (ties away from zero), keeping the magnitude: the result is `n` with
all digits beyond the first `prec` replaced by zeros, with a carry when the
dropped remainder is at least half a unit in the last kept place. -/
def roundSigPos (prec n : Nat) : Nat :=
  let k := digitCount n
  if k ≤ prec then n
  else
    let m := 10 ^ (k - prec)
    let q := n / m
    let r := n % m
    (if m ≤ 2 * r then q + 1 else q) * m

/-- The scale of a finite decimal rational: the least `s` with `q * 10 ^ s`
integral, computed from the multiplicities of 2 and 5 in the reduced
denominator. -/
def decScale (q : ℚ) : Nat :=
  max (countFactor 2 q.den) (countFactor 5 q.den)

/-- Round a finite decimal rational to `prec` significant digits, half up,
away from zero — the rounding `decimal.js` applies to every arithmetic
result under the default configuration. -/
def roundSig (prec : Nat) (q : ℚ) : ℚ :=
  let s := decScale q
  let n := q.num.natAbs * (10 ^ s / q.den)
  let r := roundSigPos prec n
  if q < 0 then -((r : ℚ) / 10 ^ s) else (r : ℚ) / 10 ^ s

/-- Embeds `Asset.toAtomicAmount` from `asset.js`:
`BigInt(wholeAmount.times(new Decimal(10).pow(decimals)).toFixed())`.
The product is rounded to 20 significant digits by `times`; `toFixed()` then
prints it without further rounding, and `BigInt` throws unless that string is
an integer. -/
def toAtomicAmount (decimals : Nat) (wholeAmount : ℚ) : Except String Int :=
  let atomicAmount := roundSig 20 (wholeAmount * 10 ^ decimals)
  if atomicAmount.den = 1 then .ok atomicAmount.num
  else .error "Cannot convert to a BigInt"

/-- Embeds `Asset.fromAtomicAmount` from `asset.js`:
`atomicAmount.dividedBy(new Decimal(10).pow(decimals))`, whose quotient is
rounded to 20 significant digits by `dividedBy`. -/
def fromAtomicAmount (decimals : Nat) (atomicAmount : Int) : ℚ :=
  roundSig 20 ((atomicAmount : ℚ) / 10 ^ decimals)

/-- Embeds the static `Asset.primaryDenomination` from `asset.js`. -/
def primaryDenomination (assetId : String) : String :=
  if [CoinbaseAssets.Gwei, CoinbaseAssets.Wei].contains assetId then CoinbaseAssets.Eth
  else assetId

/-! ## The staking operation data model

The backend snapshot (`StakingOperation` model from the API client) and the
client-side state container from `staking_operation.js`.  The `Transaction`
wrapper class lives in `transaction.js`, outside `src/`.  Modelled from the
spec: a Transaction is identified by its unsigned payload (§3), and the code
in `staking_operation.js` reads exactly `tx.getUnsignedPayload()` from the
wrapper and `transaction.unsigned_payload` from the model, so the wrapper is
modelled as the transaction model record itself. -/

/-- A transaction entry of a staking-operation snapshot, restricted to the
fields the orchestration logic inspects. -/
structure TransactionModel where
  unsigned_payload : String
  status : String
deriving DecidableEq, Repr

/-- A staking-operation snapshot as returned by the backend, restricted to
the fields the orchestration logic inspects. -/
structure StakingOperationModel where
  id : String
  network_id : String
  address_id : String
  wallet_id : Option String
  status : String
  transactions : List TransactionModel
deriving DecidableEq, Repr

/-- The `StakingOperation` state container: the current server snapshot
`model` plus the locally accumulated list of transactions. -/
structure StakingOp where
  model : StakingOperationModel
  transactions : List TransactionModel
deriving DecidableEq, Repr

/-- Embeds `loadTransactionsFromModel` from `staking_operation.js`: if the
snapshot transaction list is non-empty, collect the set of unsigned payloads
already present locally (computed once, before the loop), then append every
snapshot transaction whose unsigned payload is not in that set, in snapshot
order. -/
def loadTransactionsFromModel (modelTransactions : List TransactionModel)
    (transactions : List TransactionModel) : List TransactionModel :=
  if modelTransactions.length > 0 then
    let existingUnsignedPayloads := transactions.map (fun tx => tx.unsigned_payload)
    transactions ++
      modelTransactions.filter
        (fun transaction => !(existingUnsignedPayloads.contains transaction.unsigned_payload))
  else transactions

/-- Embeds the `StakingOperation` constructor: store the model and load its
transactions into an initially empty local list. -/
def StakingOp.mk' (model : StakingOperationModel) : StakingOp :=
  { model := model, transactions := loadTransactionsFromModel model.transactions [] }

/-- Embeds `StakingOperation.reload` from `staking_operation.js`.  The fetch
result decoded from whichever backend path runs is passed as `fetched`: with
no `wallet_id` the external path runs, with a non-empty `wallet_id` the
wallet path runs, and with an empty-string `wallet_id` neither branch runs
and the stored model is kept.  In every case `loadTransactionsFromModel`
then reconciles the local transaction list against the current model. -/
def StakingOp.reload (st : StakingOp) (fetched : StakingOperationModel) : StakingOp :=
  let m := if st.model.wallet_id = some "" then st.model else fetched
  { model := m, transactions := loadTransactionsFromModel m.transactions st.transactions }

/-- Which backend call `reload` issues, as a function of the stored
`wallet_id`: `getExternalStakingOperation` when it is absent,
`getStakingOperation` on the wallet client when it is non-empty, and no call
at all when it is the empty string. -/
inductive BackendPath where
  | externalPath
  | walletPath
deriving DecidableEq, Repr

/-- The backend path selected by the `if`/`else if` chain in `reload`. -/
def reloadCallsPath (walletId : Option String) : Option BackendPath :=
  match walletId with
  | none => some .externalPath
  | some w => if w ≠ "" then some .walletPath else none

/-- Embeds the static `StakingOperation.fetch`: external path when
`walletId` is `undefined`, wallet path when it is non-empty, and an
`Invalid wallet ID` error when it is the empty string.  The decoded results
of the two possible backend calls are passed as arguments. -/
def StakingOp.fetch (walletId : Option String)
    (externalResult walletResult : StakingOperationModel) :
    Except String StakingOp :=
  match walletId with
  | none => .ok (StakingOp.mk' externalResult)
  | some w => if w ≠ "" then .ok (StakingOp.mk' walletResult) else .error "Invalid wallet ID"

/-- Embeds `isFailedState`. -/
def StakingOp.isFailedState (st : StakingOp) : Bool :=
  st.model.status == StakingOperationStatusEnum.Failed

/-- Embeds `isCompleteState`. -/
def StakingOp.isCompleteState (st : StakingOp) : Bool :=
  st.model.status == StakingOperationStatusEnum.Complete

/-- Embeds `isTerminalState`. -/
def StakingOp.isTerminalState (st : StakingOp) : Bool :=
  st.isCompleteState || st.isFailedState

/-- The sequence of states produced by repeated `reload` calls against the
sequence of backend responses `fetch`: `reloadSeq st fetch n` is the state
after `n` reloads. -/
def reloadSeq (st : StakingOp) (fetch : Nat → StakingOperationModel) : Nat → StakingOp
  | 0 => st
  | n + 1 => (reloadSeq st fetch n).reload (fetch n)

/-! ## The `wait` polling loop

`wait` from `staking_operation.js` is driven by the wall clock.  The model
makes the two clock reads of iteration `i` explicit: `t1 i` is the value of
`Date.now() - startTime` at the loop-top check and `t2 i` its value at the
post-reload check, both in milliseconds; `timeoutMs` is
`timeoutSeconds * 1000`.  The backend response consumed by the reload of
iteration `i` is `fetch i`.  `fuel` bounds the number of iterations the
model can unfold; `none` means the fuel ran out before the loop exited, so
every theorem supplies enough fuel for the exit it derives. -/

/-- The loop body of `wait`: loop-top deadline check, reload, terminal-state
check, post-reload deadline check, then the next iteration (the
`delay(intervalSeconds)` sleep only advances the clock, which the model
reads through `t1`/`t2`). -/
def waitAux (timeoutMs : Nat) (t1 t2 : Nat → Nat) (fetch : Nat → StakingOperationModel) :
    Nat → Nat → StakingOp → Option (Except String StakingOperationModel)
  | 0, _, _ => none
  | fuel + 1, i, st =>
    if t1 i < timeoutMs then
      let st1 := st.reload (fetch i)
      if st1.isTerminalState then some (.ok st1.model)
      else if timeoutMs < t2 i then some (.error "Staking operation timed out")
      else waitAux timeoutMs t1 t2 fetch fuel (i + 1) st1
    else some (.error "Staking operation timed out")

/-- Embeds `StakingOperation.wait`: reject any operation whose `wallet_id`
is present (the JavaScript check `getWalletID() != undefined` is true for
the empty string too), then run the polling loop from iteration 0. -/
def StakingOp.wait (st : StakingOp) (timeoutMs : Nat) (t1 t2 : Nat → Nat)
    (fetch : Nat → StakingOperationModel) (fuel : Nat) :
    Option (Except String StakingOperationModel) :=
  if st.model.wallet_id ≠ none then
    some (.error "cannot wait on staking operation for wallet address.")
  else waitAux timeoutMs t1 t2 fetch fuel 0 st

/-! ## Request builders (`external_address.js` and `wallet_address.js`)

Both builders resolve the asset over the network first; the resolved decimal
count is passed in as `decimals`.  A returned `Except.ok request` value is
the request handed to the build/create endpoint; an error is thrown before
any network-mutating call. -/

/-- The request body submitted to `buildStakingOperation` on the stake API
client by an external address. -/
structure BuildStakingOperationRequest where
  network_id : String
  asset_id : String
  address_id : String
  action : String
  options : Options
deriving DecidableEq, Repr

/-- The request body submitted to `createStakingOperation` on the wallet
stake API client (the wallet and address ids travel as separate call
arguments). -/
structure CreateStakingOperationRequest where
  network_id : String
  asset_id : String
  action : String
  options : Options
deriving DecidableEq, Repr

/-- Embeds `ExternalAddress.buildStakingOperation`: copy the options, write
`mode`, and unless the call is a dedicated-eth unstake v2 require a positive
amount and write its atomic conversion under `amount`; then submit the
request. -/
def buildStakingOperation (networkId addressId : String) (decimals : Nat)
    (amount : ℚ) (assetId action mode : String) (options : Options) :
    Except String BuildStakingOperationRequest :=
  let newOptions := optSet options "mode" mode
  if !(IsDedicatedEthUnstakeV2Operation assetId action mode newOptions) then
    if amount ≤ 0 then .error "Amount required greater than zero."
    else
      match toAtomicAmount decimals amount with
      | .error e => .error e
      | .ok a =>
          .ok { network_id := networkId
                asset_id := primaryDenomination assetId
                address_id := addressId
                action := action
                options := optSet newOptions "amount" (toString a) }
  else
    .ok { network_id := networkId
          asset_id := primaryDenomination assetId
          address_id := addressId
          action := action
          options := newOptions }

/-- Embeds `WalletAddress.createStakingOperationRequest`: write `mode`, and
unless the call is a dedicated-eth unstake v2 write the atomic amount (this
helper has no positivity check of its own); then submit the request. -/
def createStakingOperationRequest (networkId : String) (decimals : Nat)
    (amount : ℚ) (assetId action mode : String) (options : Options) :
    Except String CreateStakingOperationRequest :=
  let options1 := optSet options "mode" mode
  if !(IsDedicatedEthUnstakeV2Operation assetId action mode options1) then
    match toAtomicAmount decimals amount with
    | .error e => .error e
    | .ok a =>
        .ok { network_id := networkId
              asset_id := primaryDenomination assetId
              action := action
              options := optSet options1 "amount" (toString a) }
  else
    .ok { network_id := networkId
          asset_id := primaryDenomination assetId
          action := action
          options := options1 }

/-- Embeds the amount guard at the top of
`WalletAddress.createStakingOperation`, followed by the request build
performed by `createStakingOperationRequest` (the subsequent
sign/broadcast/poll loop consumes the created operation and is not part of
request creation). -/
def createStakingOperation (networkId : String) (decimals : Nat)
    (amount : ℚ) (assetId action mode : String) (options : Options) :
    Except String CreateStakingOperationRequest :=
  if !(IsDedicatedEthUnstakeV2Operation assetId action mode options) then
    if amount ≤ 0 then .error "Amount required greater than zero."
    else createStakingOperationRequest networkId decimals amount assetId action mode options
  else createStakingOperationRequest networkId decimals amount assetId action mode options

/-! ## Balance-gated validation (`Address` in the address module)

`getStakingBalances` issues exactly one `getStakingContext` call and decodes
the four balance fields.  The decoding of each balance model
(`Balance.fromModelAndAssetId`, outside `src/`) is abstracted: the context
is passed in as the four decoded amounts.  Each validator below returns its
outcome together with the number of `getStakingContext` calls it issued. -/

/-- The four decoded staking balances returned by one `getStakingContext`
call. -/
structure StakingContext where
  stakeableBalance : ℚ
  unstakeableBalance : ℚ
  claimableBalance : ℚ
  pendingClaimableBalance : ℚ

/-- Errors thrown by the validation methods.  `insufficientFunds action
requested available` stands for the thrown message `Insufficient funds
<requested> requested to <action>, only <available> available.`, which
interpolates both amounts; `ethNativeClaimUnsupported` stands for `Claiming
stake for ETH is not supported in native mode.`. -/
inductive StakeValidationError where
  | insufficientFunds (action : String) (requested available : ℚ)
  | ethNativeClaimUnsupported

/-- Embeds `Address.validateCanStake`: fetch the stakeable balance (one
`getStakingContext` call) and fail when it is below the requested amount. -/
def validateCanStake (amount : ℚ) (ctx : StakingContext) :
    Except StakeValidationError Unit × Nat :=
  (if ctx.stakeableBalance < amount then
      .error (.insufficientFunds "stake" amount ctx.stakeableBalance)
    else .ok (), 1)

/-- Embeds `Address.validateCanUnstake`. -/
def validateCanUnstake (amount : ℚ) (ctx : StakingContext) :
    Except StakeValidationError Unit × Nat :=
  (if ctx.unstakeableBalance < amount then
      .error (.insufficientFunds "unstake" amount ctx.unstakeableBalance)
    else .ok (), 1)

/-- Embeds `Address.validateCanClaimStake`: reject the native-eth NATIVE-mode
combination before any balance fetch, otherwise fetch the claimable balance
(one `getStakingContext` call) and fail when it is below the requested
amount. -/
def validateCanClaimStake (amount : ℚ) (assetId mode : String)
    (ctx : StakingContext) : Except StakeValidationError Unit × Nat :=
  if assetId = "eth" ∧ mode = StakeOptionsMode.NATIVE then
    (.error .ethNativeClaimUnsupported, 0)
  else
    (if ctx.claimableBalance < amount then
        .error (.insufficientFunds "claim stake" amount ctx.claimableBalance)
      else .ok (), 1)

/-! ## The consensus-layer exit option builder (`staking_operation.js`) -/

/-- Embeds `ConsensusLayerExitOptionBuilder.addValidator`: push the key only
when it is not already present. -/
def addValidator (validatorPubKeys : List String) (pubKey : String) : List String :=
  if !(validatorPubKeys.contains pubKey) then validatorPubKeys ++ [pubKey]
  else validatorPubKeys

/-- Embeds `ConsensusLayerExitOptionBuilder.build`:
`Object.assign({}, options, { unstake_type, validator_pub_keys })` — a fresh
object holding the caller options with the two computed fields written last,
so they overwrite caller-supplied values at those keys. -/
def consensusExitBuild (validatorPubKeys : List String) (options : Options) : Options :=
  optSet (optSet options "unstake_type" UnstakeTypeConsensus)
    "validator_pub_keys" (String.intercalate "," validatorPubKeys)

/-- The state after a whole sequence of `reload` calls, fed one backend
snapshot per call. -/
def applyReloads (st : StakingOp) (snaps : List StakingOperationModel) : StakingOp :=
  snaps.foldl StakingOp.reload st


/-! ## Concrete fixtures used by witnesses and counterexamples -/

/-- A transaction model with the given unsigned payload. -/
def sampleTx (p : String) : TransactionModel :=
  { unsigned_payload := p, status := "pending" }

/-- A pending external-address snapshot with no transactions. -/
def samplePendingModel : StakingOperationModel :=
  { id := "so-1", network_id := "ethereum-hoodi", address_id := "addr-1",
    wallet_id := none, status := "pending", transactions := [] }

/-- A completed external-address snapshot. -/
def sampleCompleteModel : StakingOperationModel :=
  { samplePendingModel with status := StakingOperationStatusEnum.Complete }

/-- A pending snapshot carrying transactions `a` then `b`. -/
def sampleSnapAB : StakingOperationModel :=
  { samplePendingModel with transactions := [sampleTx "a", sampleTx "b"] }

/-- A pending snapshot carrying the same transaction twice. -/
def sampleSnapDup : StakingOperationModel :=
  { samplePendingModel with transactions := [sampleTx "a", sampleTx "a"] }

/-- An operation holding transaction `a` locally, snapshot also listing `a`. -/
def sampleOpA : StakingOp :=
  { model := { samplePendingModel with transactions := [sampleTx "a"] },
    transactions := [sampleTx "a"] }

/-- A pending snapshot owned by a wallet address. -/
def sampleWalletModel : StakingOperationModel :=
  { samplePendingModel with wallet_id := some "wallet-1" }

/-- A staking context with every balance equal to 10. -/
def sampleContext : StakingContext :=
  { stakeableBalance := 10, unstakeableBalance := 10,
    claimableBalance := 10, pendingClaimableBalance := 10 }

/-- An operation stored with an empty-string wallet id, its model
transactions already loaded locally. -/
def sampleEmptyWalletOp : StakingOp :=
  { model :=
      { samplePendingModel with
        wallet_id := some ""
        transactions := [sampleTx "a"] }
    transactions := [sampleTx "a"] }


/-! ## First-occurrence deduplication, the specification-side comparison

The spec describes reconciliation as keeping each key's first occurrence in
first-seen order.  `firstDedupBy` is that description as a definition; the
reconciliation code is proved equal to it under the stated hypotheses. -/

/-- Keep each element whose key was not seen before, accumulating seen keys. -/
def firstDedupByAux {α β : Type} (key : α → β) [DecidableEq β] (seen : List β) :
    List α → List α
  | [] => []
  | a :: l =>
    if key a ∈ seen then firstDedupByAux key seen l
    else a :: firstDedupByAux key (key a :: seen) l

/-- Keep the first occurrence of each key, in first-seen order. -/
def firstDedupBy {α β : Type} (key : α → β) [DecidableEq β] (l : List α) : List α :=
  firstDedupByAux key [] l

/-- One reconciliation step, generically: append, in `snap` order, every
`snap` element whose key is not among the keys of `loc`. -/
def mergeNewByKey {α β : Type} (key : α → β) [DecidableEq β] (loc snap : List α) :
    List α :=
  loc ++ snap.filter (fun a => decide (key a ∉ loc.map key))

theorem firstDedupByAux_congr {α β : Type} (key : α → β) [DecidableEq β] :
    ∀ (l : List α) (s₁ s₂ : List β), (∀ b, b ∈ s₁ ↔ b ∈ s₂) →
      firstDedupByAux key s₁ l = firstDedupByAux key s₂ l
  | [], _, _, _ => rfl
  | a :: l, s₁, s₂, h => by
    simp only [firstDedupByAux]
    by_cases hm : key a ∈ s₁
    · rw [if_pos hm, if_pos ((h _).mp hm)]
      exact firstDedupByAux_congr key l s₁ s₂ h
    · rw [if_neg hm, if_neg (fun hc => hm ((h _).mpr hc))]
      rw [firstDedupByAux_congr key l (key a :: s₁) (key a :: s₂)
        (by intro b; simp [h b])]

theorem firstDedupByAux_eq_filter {α β : Type} (key : α → β) [DecidableEq β] :
    ∀ (l : List α) (seen : List β), (l.map key).Nodup →
      firstDedupByAux key seen l = l.filter (fun a => decide (key a ∉ seen))
  | [], _, _ => rfl
  | a :: l, seen, h => by
    rw [List.map_cons, List.nodup_cons] at h
    obtain ⟨hna, hnd⟩ := h
    simp only [firstDedupByAux, List.filter_cons]
    by_cases hm : key a ∈ seen
    · rw [if_pos hm]
      simp only [hm, not_true_eq_false, decide_False, if_false]
      exact firstDedupByAux_eq_filter key l seen hnd
    · rw [if_neg hm]
      simp only [hm, not_false_eq_true, decide_True, if_true]
      rw [firstDedupByAux_eq_filter key l (key a :: seen) hnd]
      congr 1
      apply List.filter_congr
      intro x hx
      have hne : key x ≠ key a := by
        intro he
        exact hna (he ▸ List.mem_map_of_mem key hx)
      simp [List.mem_cons, hne, hm]

theorem firstDedupByAux_append {α β : Type} (key : α → β) [DecidableEq β] :
    ∀ (L : List α) (s : List α) (seen : List β),
      firstDedupByAux key seen (L ++ s) =
        firstDedupByAux key seen L ++
          firstDedupByAux key (seen ++ (firstDedupByAux key seen L).map key) s
  | [], s, seen => by simp [firstDedupByAux]
  | a :: L, s, seen => by
    simp only [List.cons_append, firstDedupByAux, List.append_eq]
    by_cases hm : key a ∈ seen
    · rw [if_pos hm, if_pos hm]
      exact firstDedupByAux_append key L s seen
    · rw [if_neg hm, if_neg hm]
      rw [firstDedupByAux_append key L s (key a :: seen)]
      simp only [List.cons_append, List.map_cons]
      congr 1
      congr 1
      apply firstDedupByAux_congr
      intro b
      simp [List.mem_cons, List.mem_append]
      tauto

theorem mem_map_firstDedupByAux {α β : Type} (key : α → β) [DecidableEq β] :
    ∀ (l : List α) (seen : List β) (b : β),
      b ∈ (firstDedupByAux key seen l).map key ↔ b ∉ seen ∧ b ∈ l.map key
  | [], seen, b => by simp [firstDedupByAux]
  | a :: l, seen, b => by
    simp only [firstDedupByAux]
    by_cases hm : key a ∈ seen
    · rw [if_pos hm]
      rw [mem_map_firstDedupByAux key l seen b]
      simp only [List.map_cons, List.mem_cons]
      constructor
      · rintro ⟨hb, hbl⟩; exact ⟨hb, Or.inr hbl⟩
      · rintro ⟨hb, hba | hbl⟩
        · exact absurd (hba ▸ hm) hb
        · exact ⟨hb, hbl⟩
    · rw [if_neg hm]
      simp only [List.map_cons, List.mem_cons]
      rw [mem_map_firstDedupByAux key l (key a :: seen) b]
      simp only [List.mem_cons]
      by_cases hba : b = key a
      · subst hba; simp [hm]
      · simp [hba]

theorem nodup_map_firstDedupByAux {α β : Type} (key : α → β) [DecidableEq β] :
    ∀ (l : List α) (seen : List β), ((firstDedupByAux key seen l).map key).Nodup
  | [], _ => by simp [firstDedupByAux]
  | a :: l, seen => by
    simp only [firstDedupByAux]
    by_cases hm : key a ∈ seen
    · rw [if_pos hm]; exact nodup_map_firstDedupByAux key l seen
    · rw [if_neg hm]
      simp only [List.map_cons, List.nodup_cons]
      refine ⟨?_, nodup_map_firstDedupByAux key l (key a :: seen)⟩
      intro hmem
      exact ((mem_map_firstDedupByAux key l (key a :: seen) (key a)).mp hmem).1
        (List.mem_cons_self _ _)

theorem firstDedupBy_eq_self {α β : Type} (key : α → β) [DecidableEq β]
    (l : List α) (h : (l.map key).Nodup) : firstDedupBy key l = l := by
  rw [firstDedupBy, firstDedupByAux_eq_filter key l [] h]
  apply List.filter_eq_self.mpr
  intro a _
  simp

theorem mergeNewByKey_eq_firstDedupBy {α β : Type} (key : α → β) [DecidableEq β]
    (loc snap : List α) (hloc : (loc.map key).Nodup) (hsnap : (snap.map key).Nodup) :
    mergeNewByKey key loc snap = firstDedupBy key (loc ++ snap) := by
  rw [firstDedupBy, firstDedupByAux_append key loc snap []]
  have h1 : firstDedupByAux key [] loc = loc := firstDedupBy_eq_self key loc hloc
  rw [h1]
  rw [firstDedupByAux_eq_filter key snap _ hsnap]
  simp [mergeNewByKey]

theorem firstDedupBy_idem_append {α β : Type} (key : α → β) [DecidableEq β]
    (L s : List α) :
    firstDedupBy key (firstDedupBy key L ++ s) = firstDedupBy key (L ++ s) := by
  have hnd : ((firstDedupBy key L).map key).Nodup := nodup_map_firstDedupByAux key L []
  have h1 : firstDedupByAux key [] (firstDedupBy key L) = firstDedupBy key L :=
    firstDedupBy_eq_self key _ hnd
  show firstDedupByAux key [] (firstDedupBy key L ++ s) = firstDedupByAux key [] (L ++ s)
  rw [firstDedupByAux_append key (firstDedupBy key L) s [], h1,
    firstDedupByAux_append key L s []]
  rfl

theorem foldl_mergeNewByKey {α β : Type} (key : α → β) [DecidableEq β] :
    ∀ (snaps : List (List α)) (loc : List α), (loc.map key).Nodup →
      (∀ s ∈ snaps, (s.map key).Nodup) →
      snaps.foldl (mergeNewByKey key) loc = firstDedupBy key (loc ++ snaps.flatten)
  | [], loc, hloc, _ => by
    simpa using (firstDedupBy_eq_self key loc hloc).symm
  | s :: snaps, loc, hloc, hsnaps => by
    have hs : (s.map key).Nodup := hsnaps s (List.mem_cons_self _ _)
    have hmerge : mergeNewByKey key loc s = firstDedupBy key (loc ++ s) :=
      mergeNewByKey_eq_firstDedupBy key loc s hloc hs
    have hnd : ((mergeNewByKey key loc s).map key).Nodup := by
      rw [hmerge]; exact nodup_map_firstDedupByAux key (loc ++ s) []
    calc (s :: snaps).foldl (mergeNewByKey key) loc
        = snaps.foldl (mergeNewByKey key) (mergeNewByKey key loc s) := rfl
      _ = firstDedupBy key (mergeNewByKey key loc s ++ snaps.flatten) :=
          foldl_mergeNewByKey key snaps _ hnd (fun t ht => hsnaps t (List.mem_cons_of_mem _ ht))
      _ = firstDedupBy key (firstDedupBy key (loc ++ s) ++ snaps.flatten) := by rw [hmerge]
      _ = firstDedupBy key ((loc ++ s) ++ snaps.flatten) :=
          firstDedupBy_idem_append key (loc ++ s) snaps.flatten
      _ = firstDedupBy key (loc ++ (s :: snaps).flatten) := by simp

theorem prefix_foldl_mergeNewByKey {α β : Type} (key : α → β) [DecidableEq β] :
    ∀ (snaps : List (List α)) (loc : List α),
      loc <+: snaps.foldl (mergeNewByKey key) loc
  | [], loc => List.prefix_refl loc
  | s :: snaps, loc =>
    List.IsPrefix.trans (List.prefix_append loc _)
      (prefix_foldl_mergeNewByKey key snaps (mergeNewByKey key loc s))

/-! ## Bridging the source definitions to the generic merge -/

theorem loadTransactionsFromModel_eq_merge (modelTransactions transactions :
    List TransactionModel) :
    loadTransactionsFromModel modelTransactions transactions =
      mergeNewByKey TransactionModel.unsigned_payload transactions modelTransactions := by
  cases modelTransactions with
  | nil => simp [loadTransactionsFromModel, mergeNewByKey]
  | cons t ts =>
    simp only [loadTransactionsFromModel, mergeNewByKey, List.length_cons]
    rw [if_pos (Nat.succ_pos _)]
    congr 1
    apply List.filter_congr
    intro x _
    simp [List.contains, List.elem_eq_mem, decide_not]
    rw [← decide_not, decide_eq_decide]
    push_neg
    tauto

theorem addValidator_eq_merge (validatorPubKeys : List String) (pubKey : String) :
    addValidator validatorPubKeys pubKey =
      mergeNewByKey (fun s => s) validatorPubKeys [pubKey] := by
  simp only [addValidator, mergeNewByKey, List.filter_cons, List.filter_nil, List.map_id']
  by_cases hm : pubKey ∈ validatorPubKeys
  · simp [hm]
  · simp [hm]

theorem applyReloads_transactions :
    ∀ (snaps : List StakingOperationModel) (st : StakingOp),
      st.model.wallet_id ≠ some "" → (∀ s ∈ snaps, s.wallet_id ≠ some "") →
      (applyReloads st snaps).transactions =
        (snaps.map (fun s => s.transactions)).foldl
          (mergeNewByKey TransactionModel.unsigned_payload) st.transactions
  | [], st, _, _ => rfl
  | s :: snaps, st, hw, hws => by
    have hstep : st.reload s =
        { model := s,
          transactions := mergeNewByKey TransactionModel.unsigned_payload
            st.transactions s.transactions } := by
      simp only [StakingOp.reload, if_neg hw]
      rw [loadTransactionsFromModel_eq_merge]
    calc (applyReloads st (s :: snaps)).transactions
        = (applyReloads (st.reload s) snaps).transactions := rfl
      _ = ((snaps.map (fun s => s.transactions)).foldl
            (mergeNewByKey TransactionModel.unsigned_payload) (st.reload s).transactions) := by
          apply applyReloads_transactions snaps (st.reload s)
          · rw [hstep]; exact hws s (List.mem_cons_self _ _)
          · exact fun t ht => hws t (List.mem_cons_of_mem _ ht)
      _ = _ := by rw [hstep]; simp

/-! ## Claim C1 -/

/-- Claim C1 (amended): for every staking operation not on the empty-string
wallet path and any sequence of `reload` snapshots whose transaction lists
carry pairwise-distinct unsigned payloads and are supersets (keyed by
unsigned payload) of the local list at each call, the resulting local list
is exactly the first-occurrence deduplication, by unsigned payload, of the
initial local list followed by the snapshots in order: every payload appears
exactly once, in first-seen order, the initial list stays an untouched
prefix, and a payload is present iff it was local initially or appeared in
some snapshot. -/
theorem reload_reconciliation_first_seen (st : StakingOp)
    (snaps : List StakingOperationModel)
    (hw : st.model.wallet_id ≠ some "")
    (hws : ∀ s ∈ snaps, s.wallet_id ≠ some "")
    (hnd0 : (st.transactions.map TransactionModel.unsigned_payload).Nodup)
    (hnds : ∀ s ∈ snaps, (s.transactions.map TransactionModel.unsigned_payload).Nodup)
    (hsup : ∀ i, (hi : i < snaps.length) →
      ∀ t ∈ (applyReloads st (snaps.take i)).transactions,
        t.unsigned_payload ∈
          (snaps.get ⟨i, hi⟩).transactions.map TransactionModel.unsigned_payload) :
    (applyReloads st snaps).transactions =
        firstDedupBy TransactionModel.unsigned_payload
          (st.transactions ++ (snaps.map (fun s => s.transactions)).flatten) ∧
      st.transactions <+: (applyReloads st snaps).transactions ∧
      ((applyReloads st snaps).transactions.map TransactionModel.unsigned_payload).Nodup ∧
      ∀ p, p ∈ (applyReloads st snaps).transactions.map TransactionModel.unsigned_payload ↔
        (p ∈ st.transactions.map TransactionModel.unsigned_payload ∨
          ∃ s ∈ snaps, p ∈ s.transactions.map TransactionModel.unsigned_payload) := by
  have htx := applyReloads_transactions snaps st hw hws
  have hnds2 : ∀ l ∈ snaps.map (fun s => s.transactions),
      (l.map TransactionModel.unsigned_payload).Nodup := by
    intro l hl
    obtain ⟨m, hm, rfl⟩ := List.mem_map.mp hl
    exact hnds m hm
  have hfold := foldl_mergeNewByKey TransactionModel.unsigned_payload
    (snaps.map (fun s => s.transactions)) st.transactions hnd0 hnds2
  refine ⟨?_, ?_, ?_, ?_⟩
  · rw [htx, hfold]
  · rw [htx]
    exact prefix_foldl_mergeNewByKey _ _ _
  · rw [htx, hfold]
    exact nodup_map_firstDedupByAux _ _ _
  · intro p
    rw [htx, hfold, firstDedupBy, mem_map_firstDedupByAux]
    simp only [List.not_mem_nil, not_false_eq_true, true_and, List.map_append,
      List.mem_append]
    constructor
    · rintro (hp | hp)
      · exact Or.inl hp
      · refine Or.inr ?_
        rw [List.map_flatten, List.mem_flatten] at hp
        obtain ⟨l, hl, hpl⟩ := hp
        rw [List.map_map, List.mem_map] at hl
        obtain ⟨s, hs, rfl⟩ := hl
        exact ⟨s, hs, hpl⟩
    · rintro (hp | ⟨s, hs, hp⟩)
      · exact Or.inl hp
      · refine Or.inr ?_
        rw [List.map_flatten, List.mem_flatten]
        refine ⟨s.transactions.map TransactionModel.unsigned_payload, ?_, hp⟩
        rw [List.map_map, List.mem_map]
        exact ⟨s, hs, rfl⟩

/-- Claim C1 witness: one reload of an operation holding transaction `a`
against a snapshot listing `a` then `b`, satisfying every hypothesis of the
reconciliation theorem. -/
theorem reload_reconciliation_first_seen_witness :
    (applyReloads sampleOpA [sampleSnapAB]).transactions =
        firstDedupBy TransactionModel.unsigned_payload
          (sampleOpA.transactions ++
            (([sampleSnapAB].map (fun s => s.transactions)).flatten)) ∧
      sampleOpA.transactions <+: (applyReloads sampleOpA [sampleSnapAB]).transactions ∧
      ((applyReloads sampleOpA [sampleSnapAB]).transactions.map
        TransactionModel.unsigned_payload).Nodup ∧
      ∀ p, p ∈ (applyReloads sampleOpA [sampleSnapAB]).transactions.map
          TransactionModel.unsigned_payload ↔
        (p ∈ sampleOpA.transactions.map TransactionModel.unsigned_payload ∨
          ∃ s ∈ [sampleSnapAB], p ∈ s.transactions.map TransactionModel.unsigned_payload) :=
  reload_reconciliation_first_seen sampleOpA [sampleSnapAB]
    (by decide) (by decide) (by decide) (by decide)
    (fun i hi => by
      have h1 : i = 0 := by
        simp only [List.length_singleton] at hi
        omega
      subst h1
      have hg : [sampleSnapAB].get ⟨0, hi⟩ = sampleSnapAB := rfl
      rw [hg]
      decide)

/-- Claim C1 counterexample: a snapshot whose transaction list repeats one
unsigned payload is a superset (keyed by payload) of the empty local list,
yet a single reload stores that transaction twice, so the local list does
not contain each remote transaction exactly once. -/
theorem reload_duplicate_snapshot_counterexample :
    (∀ t ∈ (StakingOp.mk' samplePendingModel).transactions,
        t.unsigned_payload ∈
          sampleSnapDup.transactions.map TransactionModel.unsigned_payload) ∧
    (((StakingOp.mk' samplePendingModel).reload sampleSnapDup).transactions.map
        TransactionModel.unsigned_payload).count "a" = 2 := by
  decide

/-! ## Claim C2 -/

/-- Claim C2 (amended): `reload` adopts the fetched snapshot status
verbatim, so a terminal status is preserved exactly when the fetched
snapshot itself still carries that status; under that assumption the
operation stays terminal while every other snapshot field may change. -/
theorem reload_preserves_agreeing_terminal_status (st : StakingOp)
    (fetched : StakingOperationModel)
    (hterm : st.isTerminalState = true)
    (hstatus : fetched.status = st.model.status) :
    (st.reload fetched).model.status = st.model.status ∧
      (st.reload fetched).isTerminalState = true := by
  have hs : (st.reload fetched).model.status = st.model.status := by
    simp only [StakingOp.reload]
    by_cases hw : st.model.wallet_id = some ""
    · rw [if_pos hw]
    · rw [if_neg hw]
      exact hstatus
  refine ⟨hs, ?_⟩
  simp only [StakingOp.isTerminalState, StakingOp.isCompleteState,
    StakingOp.isFailedState] at hterm ⊢
  rw [hs]
  exact hterm

/-- Claim C2 witness: reloading a complete operation with a snapshot that
keeps the `complete` status but changes the id preserves the terminal
status. -/
theorem reload_preserves_agreeing_terminal_status_witness :
    ((StakingOp.mk' sampleCompleteModel).reload
        { sampleCompleteModel with id := "so-2" }).model.status =
        (StakingOp.mk' sampleCompleteModel).model.status ∧
      ((StakingOp.mk' sampleCompleteModel).reload
        { sampleCompleteModel with id := "so-2" }).isTerminalState = true :=
  reload_preserves_agreeing_terminal_status _ _ (by decide) (by decide)

/-- Claim C2 counterexample: the code stores whatever status the backend
returns, so a snapshot carrying `pending` moves a `complete` operation away
from its terminal status. -/
theorem reload_terminal_status_regression_counterexample :
    (StakingOp.mk' sampleCompleteModel).isTerminalState = true ∧
      ((StakingOp.mk' sampleCompleteModel).reload samplePendingModel).model.status ≠
        StakingOperationStatusEnum.Complete := by
  decide

/-! ## Claim C10 -/

/-- Claim C10: with an empty-string wallet id neither backend path is
selected, `reload` returns the state unchanged for every possible fetch
result (given the constructor-established invariant, stated as the first
conjunct, that every model transaction payload is already in the local
list), and the static fetch rejects with an `Invalid wallet ID` error. -/
theorem reload_emptyWallet_frame :
    (∀ m : StakingOperationModel, ∀ t ∈ m.transactions,
        t.unsigned_payload ∈
          (StakingOp.mk' m).transactions.map TransactionModel.unsigned_payload) ∧
    reloadCallsPath (some "") = none ∧
    (∀ (st : StakingOp) (f : StakingOperationModel), st.model.wallet_id = some "" →
      (∀ t ∈ st.model.transactions,
          t.unsigned_payload ∈ st.transactions.map TransactionModel.unsigned_payload) →
      st.reload f = st) ∧
    (∀ ext wal, StakingOp.fetch (some "") ext wal = .error "Invalid wallet ID") := by
  refine ⟨?_, rfl, ?_, fun ext wal => rfl⟩
  · intro m t ht
    unfold StakingOp.mk'
    rw [loadTransactionsFromModel_eq_merge]
    simp [mergeNewByKey]
    exact ⟨t, ht, rfl⟩
  · intro st f hw hsub
    simp only [StakingOp.reload]
    rw [if_pos hw]
    rw [loadTransactionsFromModel_eq_merge]
    unfold mergeNewByKey
    have hfil : st.model.transactions.filter
        (fun a => decide (a.unsigned_payload ∉
          st.transactions.map TransactionModel.unsigned_payload)) = [] := by
      apply List.filter_eq_nil_iff.mpr
      intro a ha
      simp only [decide_eq_true_eq, not_not]
      exact hsub a ha
    rw [hfil, List.append_nil]

/-! ## Claim C8 -/

theorem waitAux_completes (timeoutMs : Nat) (t1 t2 : Nat → Nat)
    (fetch : Nat → StakingOperationModel) (st : StakingOp) (k : Nat) :
    ∀ (fuel i : Nat), i ≤ k → k < i + fuel →
      (∀ j, i ≤ j → j ≤ k → t1 j < timeoutMs) →
      (∀ j, i ≤ j → j < k →
        (reloadSeq st fetch (j + 1)).isTerminalState = false ∧ t2 j ≤ timeoutMs) →
      (reloadSeq st fetch (k + 1)).isTerminalState = true →
      waitAux timeoutMs t1 t2 fetch fuel i (reloadSeq st fetch i) =
        some (.ok (reloadSeq st fetch (k + 1)).model)
  | 0, i, hik, hfuel, _, _, _ => by omega
  | fuel + 1, i, hik, hfuel, h1, h2, hterm => by
    have ht1 : t1 i < timeoutMs := h1 i (Nat.le_refl i) hik
    simp only [waitAux, if_pos ht1]
    have hst1 : (reloadSeq st fetch i).reload (fetch i) = reloadSeq st fetch (i + 1) := rfl
    rw [hst1]
    by_cases hik2 : i = k
    · subst hik2
      rw [if_pos hterm]
    · have hlt : i < k := Nat.lt_of_le_of_ne hik hik2
      obtain ⟨hnt, ht2⟩ := h2 i (Nat.le_refl i) hlt
      rw [hnt]
      simp only [Bool.false_eq_true, if_false]
      rw [if_neg (by omega)]
      exact waitAux_completes timeoutMs t1 t2 fetch st k fuel (i + 1) hlt (by omega)
        (fun j hj hjk => h1 j (Nat.le_of_succ_le hj) hjk)
        (fun j hj hjk => h2 j (Nat.le_of_succ_le hj) hjk) hterm

theorem waitAux_times_out (timeoutMs : Nat) (t1 t2 : Nat → Nat)
    (fetch : Nat → StakingOperationModel) (st : StakingOp) (k : Nat) :
    ∀ (fuel i : Nat), i ≤ k → k < i + fuel →
      (∀ j, i ≤ j → j < k → t1 j < timeoutMs ∧
        (reloadSeq st fetch (j + 1)).isTerminalState = false ∧ t2 j ≤ timeoutMs) →
      (reloadSeq st fetch (k + 1)).isTerminalState = false →
      (timeoutMs ≤ t1 k ∨ (t1 k < timeoutMs ∧ timeoutMs < t2 k)) →
      waitAux timeoutMs t1 t2 fetch fuel i (reloadSeq st fetch i) =
        some (.error "Staking operation timed out")
  | 0, i, hik, hfuel, _, _, _ => by omega
  | fuel + 1, i, hik, hfuel, h1, hterm, hexit => by
    by_cases hik2 : i = k
    · subst hik2
      rcases hexit with hx | ⟨hx1, hx2⟩
      · simp only [waitAux]
        rw [if_neg (by omega)]
      · simp only [waitAux, if_pos hx1]
        have hst1 : (reloadSeq st fetch i).reload (fetch i) = reloadSeq st fetch (i + 1) := rfl
        rw [hst1, hterm]
        simp only [Bool.false_eq_true, if_false]
        rw [if_pos hx2]
    · have hlt : i < k := Nat.lt_of_le_of_ne hik hik2
      obtain ⟨ht1, hnt, ht2⟩ := h1 i (Nat.le_refl i) hlt
      simp only [waitAux, if_pos ht1]
      have hst1 : (reloadSeq st fetch i).reload (fetch i) = reloadSeq st fetch (i + 1) := rfl
      rw [hst1, hnt]
      simp only [Bool.false_eq_true, if_false]
      rw [if_neg (by omega)]
      exact waitAux_times_out timeoutMs t1 t2 fetch st k fuel (i + 1) hlt (by omega)
        (fun j hj hjk => h1 j (Nat.le_of_succ_le hj) hjk) hterm hexit

/-- Claim C8: `wait` on any operation whose wallet id is set fails at once
with the wallet error, for every clock and backend behaviour; without a
wallet id it returns the first reloaded snapshot whose status is terminal,
provided every check before that leaves both deadline comparisons
unexpired; and when every reload stays non-terminal it fails with the
timeout error as soon as either deadline check fires, the deadline being
measured from loop entry through the `t1`/`t2` clock readings. -/
theorem staking_wait_spec :
    (∀ (st : StakingOp) (timeoutMs : Nat) (t1 t2 : Nat → Nat)
        (fetch : Nat → StakingOperationModel) (fuel : Nat),
      st.model.wallet_id ≠ none →
      st.wait timeoutMs t1 t2 fetch fuel =
        some (.error "cannot wait on staking operation for wallet address.")) ∧
    (∀ (st : StakingOp) (timeoutMs : Nat) (t1 t2 : Nat → Nat)
        (fetch : Nat → StakingOperationModel) (fuel k : Nat),
      st.model.wallet_id = none → k < fuel →
      (∀ j, j ≤ k → t1 j < timeoutMs) →
      (∀ j, j < k →
        (reloadSeq st fetch (j + 1)).isTerminalState = false ∧ t2 j ≤ timeoutMs) →
      (reloadSeq st fetch (k + 1)).isTerminalState = true →
      st.wait timeoutMs t1 t2 fetch fuel = some (.ok (reloadSeq st fetch (k + 1)).model)) ∧
    (∀ (st : StakingOp) (timeoutMs : Nat) (t1 t2 : Nat → Nat)
        (fetch : Nat → StakingOperationModel) (fuel k : Nat),
      st.model.wallet_id = none → k < fuel →
      (∀ j, j < k → t1 j < timeoutMs ∧
        (reloadSeq st fetch (j + 1)).isTerminalState = false ∧ t2 j ≤ timeoutMs) →
      (reloadSeq st fetch (k + 1)).isTerminalState = false →
      (timeoutMs ≤ t1 k ∨ (t1 k < timeoutMs ∧ timeoutMs < t2 k)) →
      st.wait timeoutMs t1 t2 fetch fuel =
        some (.error "Staking operation timed out")) := by
  refine ⟨?_, ?_, ?_⟩
  · intro st timeoutMs t1 t2 fetch fuel hw
    simp only [StakingOp.wait, if_pos hw]
  · intro st timeoutMs t1 t2 fetch fuel k hw hfuel h1 h2 hterm
    simp only [StakingOp.wait]
    rw [if_neg (by simp [hw])]
    exact waitAux_completes timeoutMs t1 t2 fetch st k fuel 0 (Nat.zero_le k)
      (by omega) (fun j _ hjk => h1 j hjk) (fun j _ hjk => h2 j hjk) hterm
  · intro st timeoutMs t1 t2 fetch fuel k hw hfuel h1 hterm hexit
    simp only [StakingOp.wait]
    rw [if_neg (by simp [hw])]
    exact waitAux_times_out timeoutMs t1 t2 fetch st k fuel 0 (Nat.zero_le k)
      (by omega) (fun j _ hjk => h1 j hjk) hterm hexit

/-! ## Option map lemmas -/

theorem optGet_optSet_self : ∀ (o : Options) (k v : String),
    optGet (optSet o k v) k = some v
  | [], k, v => by simp [optGet, optSet]
  | p :: rest, k, v => by
    simp only [optSet]
    by_cases h : p.1 == k
    · rw [if_pos h]
      simp [optGet]
    · rw [if_neg h]
      simp only [optGet, List.find?]
      rw [show (p.1 == k) = false from by simpa using h]
      exact optGet_optSet_self rest k v

theorem optGet_optSet_ne : ∀ (o : Options) (k v q : String), q ≠ k →
    optGet (optSet o k v) q = optGet o q
  | [], k, v, q, hq => by
    simp only [optSet, optGet, List.find?]
    rw [beq_eq_false_iff_ne.mpr (Ne.symm hq)]
  | p :: rest, k, v, q, hq => by
    simp only [optSet]
    by_cases h : p.1 == k
    · rw [if_pos h]
      simp only [optGet, List.find?]
      rw [beq_eq_false_iff_ne.mpr (Ne.symm hq)]
      have hp : (p.1 == q) = false := by
        rw [beq_eq_false_iff_ne]
        rw [show p.1 = k from by simpa using h]
        exact Ne.symm hq
      rw [hp]
    · rw [if_neg h]
      simp only [optGet, List.find?]
      by_cases hp : p.1 == q
      · rw [hp]
      · rw [show (p.1 == q) = false from by simpa using hp]
        exact optGet_optSet_ne rest k v q hq

theorem hasUnstakeTypeOption_optSet (o : Options) (k v : String)
    (hk : k ≠ "unstake_type") :
    HasUnstakeTypeOption (optSet o k v) = HasUnstakeTypeOption o := by
  unfold HasUnstakeTypeOption
  rw [optGet_optSet_ne o k v "unstake_type" (fun h => hk h.symm)]

theorem isDedicated_optSet_mode (assetId action mode : String) (o : Options) (v : String) :
    IsDedicatedEthUnstakeV2Operation assetId action mode (optSet o "mode" v) =
      IsDedicatedEthUnstakeV2Operation assetId action mode o := by
  unfold IsDedicatedEthUnstakeV2Operation
  rw [hasUnstakeTypeOption_optSet o "mode" v (by decide)]

/-! ## Claim C3 -/

/-- Claim C3 (amended): a successfully built external staking request
carries no builder-written `amount` exactly in the dedicated-eth unstake v2
case; there the options pass through unchanged apart from `mode`, so the
request omits `amount` iff the operation is amount-exempt and the caller
options did not themselves carry an `amount` key, and in every other case
the request carries `amount` equal to the stringified atomic conversion of
the requested amount. -/
theorem buildStakingOperation_amount_field (networkId addressId : String)
    (decimals : Nat) (amount : ℚ) (assetId action mode : String) (options : Options)
    (req : BuildStakingOperationRequest)
    (hok : buildStakingOperation networkId addressId decimals amount assetId action mode
      options = .ok req) :
    (IsDedicatedEthUnstakeV2Operation assetId action mode options = true →
        optGet req.options "amount" = optGet options "amount") ∧
    (IsDedicatedEthUnstakeV2Operation assetId action mode options = false →
        ∃ a, toAtomicAmount decimals amount = .ok a ∧
          optGet req.options "amount" = some (toString a)) ∧
    (optGet req.options "amount" = none ↔
      (IsDedicatedEthUnstakeV2Operation assetId action mode options = true ∧
        optGet options "amount" = none)) := by
  simp only [buildStakingOperation] at hok
  rw [isDedicated_optSet_mode] at hok
  cases hb : IsDedicatedEthUnstakeV2Operation assetId action mode options with
  | true =>
    rw [hb] at hok
    simp only [Bool.not_true, Bool.false_eq_true, if_false] at hok
    have h2 := Except.ok.inj hok
    subst h2
    refine ⟨?_, ?_, ?_⟩
    · intro _
      exact optGet_optSet_ne options "mode" mode "amount" (by decide)
    · intro hcon
      simp [hb] at hcon
    · rw [optGet_optSet_ne options "mode" mode "amount" (by decide)]
      simp [hb]
  | false =>
    rw [hb] at hok
    simp only [Bool.not_false, if_true] at hok
    by_cases hle : amount ≤ 0
    · rw [if_pos hle] at hok
      exact absurd hok (by simp)
    · rw [if_neg hle] at hok
      cases hta : toAtomicAmount decimals amount with
      | error e =>
        rw [hta] at hok
        exact absurd hok (by simp)
      | ok a =>
        rw [hta] at hok
        have h2 := Except.ok.inj hok
        subst h2
        refine ⟨?_, ?_, ?_⟩
        · intro hcon
          simp [hb] at hcon
        · intro _
          exact ⟨a, rfl, optGet_optSet_self _ "amount" (toString a)⟩
        · rw [optGet_optSet_self _ "amount" (toString a)]
          simp [hb]

/-- Claim C3 witness: a plain stake of 1.5 eth at 18 decimals is not
amount-exempt and its request carries the atomic amount string. -/
theorem buildStakingOperation_amount_field_witness :
    (IsDedicatedEthUnstakeV2Operation "eth" "stake" StakeOptionsMode.DEFAULT [] = true →
        optGet [("mode", "default"), ("amount", "1500000000000000000")] "amount" =
          optGet [] "amount") ∧
    (IsDedicatedEthUnstakeV2Operation "eth" "stake" StakeOptionsMode.DEFAULT [] = false →
        ∃ a, toAtomicAmount 18 (3 / 2) = .ok a ∧
          optGet [("mode", "default"), ("amount", "1500000000000000000")] "amount" =
            some (toString a)) ∧
    (optGet [("mode", "default"), ("amount", "1500000000000000000")] "amount" = none ↔
      (IsDedicatedEthUnstakeV2Operation "eth" "stake" StakeOptionsMode.DEFAULT [] = true ∧
        optGet ([] : Options) "amount" = none)) :=
  buildStakingOperation_amount_field "base-sepolia" "addr-1" 18 (3 / 2) "eth" "stake"
    StakeOptionsMode.DEFAULT []
    { network_id := "base-sepolia", asset_id := "eth", address_id := "addr-1",
      action := "stake",
      options := [("mode", "default"), ("amount", "1500000000000000000")] }
    (by with_unfolding_all rfl)

/-- Claim C3 counterexample: an amount-exempt call whose caller options
already carry an `amount` key produces a request that still contains the
`amount` field, so the request does not omit `amount` even though the
exemption condition holds. -/
theorem buildStakingOperation_exempt_amount_counterexample :
    IsDedicatedEthUnstakeV2Operation "eth" "unstake" StakeOptionsMode.NATIVE
        [("unstake_type", "execution"), ("amount", "5")] = true ∧
    buildStakingOperation "ethereum-mainnet" "addr-1" 18 1 "eth" "unstake"
        StakeOptionsMode.NATIVE [("unstake_type", "execution"), ("amount", "5")] =
      .ok { network_id := "ethereum-mainnet", asset_id := "eth", address_id := "addr-1",
            action := "unstake",
            options := [("unstake_type", "execution"), ("amount", "5"),
              ("mode", "native")] } ∧
    optGet [("unstake_type", "execution"), ("amount", "5"), ("mode", "native")]
        "amount" = some "5" := by
  refine ⟨by decide, by with_unfolding_all rfl, by decide⟩

/-! ## Claim C5 -/

/-- Claim C5: for a non-amount-exempt request, a non-positive amount makes
both the external build path and the wallet create path fail with the
domain error `Amount required greater than zero.` — the returned value is
the error, so no build or create request is ever produced and no
StakingOperation is constructed. -/
theorem nonpositive_amount_rejected (networkId addressId : String) (decimals : Nat)
    (amount : ℚ) (assetId action mode : String) (options : Options)
    (hnx : IsDedicatedEthUnstakeV2Operation assetId action mode options = false)
    (hle : amount ≤ 0) :
    buildStakingOperation networkId addressId decimals amount assetId action mode options =
        .error "Amount required greater than zero." ∧
      createStakingOperation networkId decimals amount assetId action mode options =
        .error "Amount required greater than zero." := by
  constructor
  · simp only [buildStakingOperation]
    rw [isDedicated_optSet_mode, hnx]
    simp only [Bool.not_false, if_true]
    rw [if_pos hle]
  · simp only [createStakingOperation]
    rw [hnx]
    simp only [Bool.not_false, if_true]
    rw [if_pos hle]

/-- Claim C5 witness: staking amount zero is rejected on both paths. -/
theorem nonpositive_amount_rejected_witness :
    buildStakingOperation "base-sepolia" "addr-1" 18 0 "eth" "stake"
        StakeOptionsMode.DEFAULT [] =
        .error "Amount required greater than zero." ∧
      createStakingOperation "base-sepolia" 18 0 "eth" "stake"
        StakeOptionsMode.DEFAULT [] =
        .error "Amount required greater than zero." :=
  nonpositive_amount_rejected "base-sepolia" "addr-1" 18 0 "eth" "stake"
    StakeOptionsMode.DEFAULT [] (by decide) (le_refl 0)

/-! ## Claim C4 -/

/-- Claim C4 (amended): for every non-negative decimal exactly representable
at `decimals` digits of fractional scale and within the converter precision
of 20 significant digits (so that the roundings in `times` and `dividedBy`
are lossless, stated as the two `roundSig` fixed-point hypotheses),
converting to atomic units and back yields the input again; and 1.5 eth at
18 decimals converts to the atomic string `1500000000000000000`. -/
theorem atomic_round_trip (d : ℚ) (decimals : Nat)
    (hpos : 0 ≤ d)
    (hexact : (d * 10 ^ decimals).den = 1)
    (hsig : roundSig 20 d = d)
    (hsigProd : roundSig 20 (d * 10 ^ decimals) = d * 10 ^ decimals) :
    (toAtomicAmount decimals d).map (fromAtomicAmount decimals) = .ok d ∧
    (toAtomicAmount 18 (3 / 2)).map toString = .ok "1500000000000000000" := by
  constructor
  · simp only [toAtomicAmount]
    rw [hsigProd, if_pos hexact]
    simp only [Except.map]
    congr 1
    simp only [fromAtomicAmount]
    have hnum : ((d * 10 ^ decimals).num : ℚ) = d * 10 ^ decimals := by
      have h := Rat.num_div_den (d * 10 ^ decimals)
      rw [hexact] at h
      simpa using h
    rw [hnum]
    rw [mul_div_cancel_right₀ d (pow_ne_zero decimals (by norm_num : (10 : ℚ) ≠ 0))]
    exact hsig
  · with_unfolding_all rfl

/-- Claim C4 witness: 1.5 at 18 decimals satisfies every hypothesis and
round-trips. -/
theorem atomic_round_trip_witness :
    (toAtomicAmount 18 (3 / 2)).map (fromAtomicAmount 18) = .ok (3 / 2) ∧
    (toAtomicAmount 18 (3 / 2)).map toString = .ok "1500000000000000000" :=
  atomic_round_trip (3 / 2) 18 (by norm_num) (by with_unfolding_all rfl)
    (by with_unfolding_all rfl) (by with_unfolding_all rfl)

/-- Claim C4 counterexample: `1 + 10 ^ (-20)` is non-negative and exactly
representable at 20 fractional digits, but it has 21 significant digits, so
the 20-significant-digit rounding inside `times` drops the last digit and
the round trip returns 1 instead of the input. -/
theorem atomic_round_trip_counterexample :
    0 ≤ ((10 : ℚ) ^ 20 + 1) / 10 ^ 20 ∧
    ((((10 : ℚ) ^ 20 + 1) / 10 ^ 20) * 10 ^ 20).den = 1 ∧
    (toAtomicAmount 20 (((10 : ℚ) ^ 20 + 1) / 10 ^ 20)).map (fromAtomicAmount 20) =
      .ok 1 ∧
    (1 : ℚ) ≠ ((10 : ℚ) ^ 20 + 1) / 10 ^ 20 := by
  refine ⟨by positivity, by with_unfolding_all rfl, by with_unfolding_all rfl, ?_⟩
  intro h
  rw [eq_div_iff (by positivity : ((10 : ℚ) ^ 20) ≠ 0)] at h
  norm_num at h

/-! ## Claim C6 -/

/-- Claim C6: each balance-gated validator succeeds at an amount equal to
the fetched available balance and fails, with an insufficiency error
carrying both the requested and the available amount, at any amount
strictly above it (for claim-stake, outside the native-eth NATIVE guard of
claim C7, under which no balance is ever fetched). -/
theorem balance_gate_boundary (a : ℚ) (ctx : StakingContext) (assetId mode : String)
    (hguard : ¬(assetId = "eth" ∧ mode = StakeOptionsMode.NATIVE)) :
    ((validateCanStake ctx.stakeableBalance ctx).1 = .ok () ∧
      (ctx.stakeableBalance < a →
        (validateCanStake a ctx).1 =
          .error (.insufficientFunds "stake" a ctx.stakeableBalance))) ∧
    ((validateCanUnstake ctx.unstakeableBalance ctx).1 = .ok () ∧
      (ctx.unstakeableBalance < a →
        (validateCanUnstake a ctx).1 =
          .error (.insufficientFunds "unstake" a ctx.unstakeableBalance))) ∧
    ((validateCanClaimStake ctx.claimableBalance assetId mode ctx).1 = .ok () ∧
      (ctx.claimableBalance < a →
        (validateCanClaimStake a assetId mode ctx).1 =
          .error (.insufficientFunds "claim stake" a ctx.claimableBalance))) := by
  refine ⟨⟨?_, ?_⟩, ⟨?_, ?_⟩, ⟨?_, ?_⟩⟩
  · simp [validateCanStake]
  · intro h
    simp only [validateCanStake]
    rw [if_pos h]
  · simp [validateCanUnstake]
  · intro h
    simp only [validateCanUnstake]
    rw [if_pos h]
  · simp only [validateCanClaimStake]
    rw [if_neg hguard]
    simp
  · intro h
    simp only [validateCanClaimStake]
    rw [if_neg hguard]
    simp only
    rw [if_pos h]

/-- Claim C6 witness: with all four balances equal to 10, staking 10
succeeds and the boundary theorem applies with amount 11 for a non-native
asset. -/
theorem balance_gate_boundary_witness :
    ((validateCanStake sampleContext.stakeableBalance sampleContext).1 = .ok () ∧
      (sampleContext.stakeableBalance < 11 →
        (validateCanStake 11 sampleContext).1 =
          .error (.insufficientFunds "stake" 11 sampleContext.stakeableBalance))) ∧
    ((validateCanUnstake sampleContext.unstakeableBalance sampleContext).1 = .ok () ∧
      (sampleContext.unstakeableBalance < 11 →
        (validateCanUnstake 11 sampleContext).1 =
          .error (.insufficientFunds "unstake" 11 sampleContext.unstakeableBalance))) ∧
    ((validateCanClaimStake sampleContext.claimableBalance "sol"
        StakeOptionsMode.DEFAULT sampleContext).1 = .ok () ∧
      (sampleContext.claimableBalance < 11 →
        (validateCanClaimStake 11 "sol" StakeOptionsMode.DEFAULT sampleContext).1 =
          .error (.insufficientFunds "claim stake" 11 sampleContext.claimableBalance))) :=
  balance_gate_boundary 11 sampleContext "sol" StakeOptionsMode.DEFAULT (by decide)

/-! ## Claim C7 -/

/-- Claim C7: claiming stake for the native asset in NATIVE mode is always
rejected with the native-claim error, for every amount and every possible
balance context, and with zero `getStakingContext` calls — the guard fires
before any balance fetch. -/
theorem native_eth_claim_rejected_before_fetch (a : ℚ) (ctx : StakingContext) :
    validateCanClaimStake a "eth" StakeOptionsMode.NATIVE ctx =
      (.error .ethNativeClaimUnsupported, 0) := by
  simp [validateCanClaimStake]

/-- Claim C8 witness: a wallet-owned operation is rejected at once; a
backend answering `complete` on the first reload returns that snapshot; a
backend never terminal with the post-reload clock past the deadline raises
the timeout error. -/
theorem staking_wait_spec_witness :
    (StakingOp.mk' sampleWalletModel).wait 1000 (fun _ => 0) (fun _ => 1)
        (fun _ => samplePendingModel) 1 =
      some (.error "cannot wait on staking operation for wallet address.") ∧
    (StakingOp.mk' samplePendingModel).wait 1000 (fun _ => 0) (fun _ => 1)
        (fun _ => sampleCompleteModel) 1 =
      some (.ok (reloadSeq (StakingOp.mk' samplePendingModel)
        (fun _ => sampleCompleteModel) 1).model) ∧
    (StakingOp.mk' samplePendingModel).wait 1000 (fun _ => 0) (fun _ => 2000)
        (fun _ => samplePendingModel) 1 =
      some (.error "Staking operation timed out") :=
  ⟨staking_wait_spec.1 (StakingOp.mk' sampleWalletModel) 1000 (fun _ => 0) (fun _ => 1)
      (fun _ => samplePendingModel) 1 (by decide),
    staking_wait_spec.2.1 (StakingOp.mk' samplePendingModel) 1000 (fun _ => 0) (fun _ => 1)
      (fun _ => sampleCompleteModel) 1 0 (by decide) (by decide)
      (fun j _ => by show (0 : Nat) < 1000; decide)
      (fun j hj => absurd hj (Nat.not_lt_zero j)) (by decide),
    staking_wait_spec.2.2 (StakingOp.mk' samplePendingModel) 1000 (fun _ => 0) (fun _ => 2000)
      (fun _ => samplePendingModel) 1 0 (by decide) (by decide)
      (fun j hj => absurd hj (Nat.not_lt_zero j)) (by decide)
      (Or.inr ⟨by decide, by decide⟩)⟩

/-! ## Claim C9 -/

theorem flatten_map_singleton {α : Type} (l : List α) :
    (l.map (fun a => [a])).flatten = l := by
  induction l with
  | nil => rfl
  | cons a l ih => simp [ih]

/-- Claim C9: the consensus-layer exit builder accumulates validator keys
de-duplicated in first-insertion order (the accumulated list is exactly the
first-occurrence deduplication of the added keys, hence duplicate-free);
`build` writes `unstake_type = consensus` and the comma-joined accumulated
keys over any caller-supplied values at those two keys, leaves every other
caller entry readable unchanged, and — being a pure function of the
accumulated set — produces the same computed fields for different caller
option maps over the same accumulated keys. -/
theorem consensus_exit_builder_spec (pubKeys : List String) (options o2 : Options) :
    (pubKeys.foldl addValidator [] = firstDedupBy (fun s => s) pubKeys) ∧
    (pubKeys.foldl addValidator []).Nodup ∧
    (optGet (consensusExitBuild (pubKeys.foldl addValidator []) options) "unstake_type" =
        some UnstakeTypeConsensus) ∧
    (optGet (consensusExitBuild (pubKeys.foldl addValidator []) options)
        "validator_pub_keys" =
        some (String.intercalate "," (pubKeys.foldl addValidator []))) ∧
    (∀ k, k ≠ "unstake_type" → k ≠ "validator_pub_keys" →
        optGet (consensusExitBuild (pubKeys.foldl addValidator []) options) k =
          optGet options k) ∧
    (optGet (consensusExitBuild (pubKeys.foldl addValidator []) options)
        "validator_pub_keys" =
      optGet (consensusExitBuild (pubKeys.foldl addValidator []) o2)
        "validator_pub_keys") := by
  have hf : addValidator = fun st k => mergeNewByKey (fun s => s) st [k] :=
    funext fun st => funext fun k => addValidator_eq_merge st k
  have h1 : pubKeys.foldl addValidator [] = firstDedupBy (fun s => s) pubKeys := by
    calc pubKeys.foldl addValidator []
        = pubKeys.foldl (fun st k => mergeNewByKey (fun s => s) st [k]) [] := by rw [hf]
      _ = (pubKeys.map (fun k => [k])).foldl (mergeNewByKey (fun s => s)) [] := by
          rw [List.foldl_map]
      _ = firstDedupBy (fun s => s) ([] ++ (pubKeys.map (fun k => [k])).flatten) := by
          apply foldl_mergeNewByKey (fun s => s) (pubKeys.map (fun k => [k])) []
          · simp
          · intro s hs
            obtain ⟨k, _, rfl⟩ := List.mem_map.mp hs
            simp
      _ = firstDedupBy (fun s => s) pubKeys := by
          rw [List.nil_append, flatten_map_singleton]
  have h2 : (pubKeys.foldl addValidator []).Nodup := by
    rw [h1]
    have := nodup_map_firstDedupByAux (fun s => s) pubKeys []
    simpa [firstDedupBy] using this
  refine ⟨h1, h2, ?_, ?_, ?_, ?_⟩
  · simp only [consensusExitBuild]
    rw [optGet_optSet_ne _ "validator_pub_keys" _ "unstake_type" (by decide)]
    exact optGet_optSet_self _ "unstake_type" UnstakeTypeConsensus
  · simp only [consensusExitBuild]
    exact optGet_optSet_self _ "validator_pub_keys" _
  · intro k hk1 hk2
    simp only [consensusExitBuild]
    rw [optGet_optSet_ne _ "validator_pub_keys" _ k hk2]
    exact optGet_optSet_ne _ "unstake_type" _ k hk1
  · simp only [consensusExitBuild]
    rw [optGet_optSet_self _ "validator_pub_keys" _,
      optGet_optSet_self _ "validator_pub_keys" _]

/-- Claim C9 witness: adding `v1`, `v2`, `v1` accumulates `[v1, v2]` and a
caller entry at an unrelated key passes through `build` unchanged. -/
theorem consensus_exit_builder_spec_witness :
    (["v1", "v2", "v1"].foldl addValidator [] =
        firstDedupBy (fun s => s) ["v1", "v2", "v1"]) ∧
    optGet (consensusExitBuild (["v1", "v2", "v1"].foldl addValidator [])
        [("a", "1"), ("unstake_type", "zzz")]) "a" = some "1" :=
  ⟨(consensus_exit_builder_spec ["v1", "v2", "v1"]
      [("a", "1"), ("unstake_type", "zzz")] []).1,
    (consensus_exit_builder_spec ["v1", "v2", "v1"]
      [("a", "1"), ("unstake_type", "zzz")] []).2.2.2.2.1 "a" (by decide) (by decide)⟩

/-- Claim C10 witness: a concrete empty-string-wallet operation is left
untouched by a reload against an arbitrary snapshot, and the static fetch
with an empty-string wallet id rejects. -/
theorem reload_emptyWallet_frame_witness :
    sampleEmptyWalletOp.reload sampleSnapAB = sampleEmptyWalletOp ∧
    StakingOp.fetch (some "") samplePendingModel samplePendingModel =
      .error "Invalid wallet ID" :=
  ⟨reload_emptyWallet_frame.2.2.1 sampleEmptyWalletOp sampleSnapAB (by decide) (by decide),
    reload_emptyWallet_frame.2.2.2 samplePendingModel samplePendingModel⟩
